import Mathlib

/-!
Verification of the frequency-dynamics simulation core of the repository
(`src/Generator.py`): the `Generator` droop-control dispatch, the
`LoadProfile` duck-curve synthesizer, and the `Grid` swing-equation loop.

Python floats are idealised as exact arithmetic: the control/grid dynamics
are embedded over `ℚ` (fully executable), while the duck-curve shape, which
uses `exp` and `sin`, is embedded over `ℝ`.  The stochastic noise vector of
`numpy.random.normal` is modelled as an explicit sequence of draws passed in
as a parameter.  In-place mutation of `Generator` objects is modelled by
explicit state passing: `dispatch` returns the value together with the
updated unit.
-/

namespace V2G

/-- A generator unit, mirroring `Generator.__init__` (src/Generator.py:8-23):
static parameters plus the mutable state `current_output` and the history
list `p_output`. -/
structure Generator where
  name : String
  p_max : ℚ
  inertia : ℚ
  damping : ℚ
  droop : ℚ
  response_rate : ℚ
  current_output : ℚ
  p_output : List ℚ
  deriving Repr, DecidableEq

/-- `Generator.__init__`: no parameter is validated; `current_output` starts
at `0.0` and the history starts empty. -/
def mkGenerator (name : String) (p_max inertia damping droop response_rate : ℚ) :
    Generator :=
  { name := name, p_max := p_max, inertia := inertia, damping := damping,
    droop := droop, response_rate := response_rate,
    current_output := 0, p_output := [] }

/-- `numpy.clip(x, lo, hi)`, i.e. `min hi (max x lo)`. -/
def clip (x lo hi : ℚ) : ℚ := min hi (max x lo)

/-- `Generator.dispatch` (src/Generator.py:25-35): droop setpoint clipped to
`[0, p_max]`, first-order smoothing with gain `response_rate`, the new output
appended to `p_output`, stored in `current_output` and returned. -/
def dispatch (g : Generator) (freq_dev demand_share : ℚ) : ℚ × Generator :=
  let setpoint := clip (demand_share - freq_dev / g.droop) 0 g.p_max
  let out := g.current_output + g.response_rate * (setpoint - g.current_output)
  (out, { g with current_output := out, p_output := g.p_output ++ [out] })

/-- The clipped droop setpoint of a unit for given inputs. -/
def setpointOf (g : Generator) (freq_dev demand_share : ℚ) : ℚ :=
  clip (demand_share - freq_dev / g.droop) 0 g.p_max

/-- A sequence of `dispatch` calls with the given `(freq_dev, demand_share)`
inputs, threading the mutable unit state. -/
def dispatchFold (g : Generator) (inputs : List (ℚ × ℚ)) : Generator :=
  inputs.foldl (fun u p => (dispatch u p.1 p.2).2) g

/-- `n` repeated `dispatch` calls with the same fixed inputs. -/
def dispatchIter (freq_dev demand_share : ℚ) : ℕ → Generator → Generator
  | 0, g => g
  | n + 1, g => (dispatch (dispatchIter freq_dev demand_share n g) freq_dev demand_share).2

/-- `numpy.arange(start, stop, step)` in exact arithmetic:
`⌈(stop - start) / step⌉` equally spaced samples starting at `start`. -/
def arange (start stop step : ℚ) : List ℚ :=
  (List.range (Nat.ceil ((stop - start) / step))).map
    (fun (i : ℕ) => start + (i : ℚ) * step)

/-- The deterministic duck-curve shape of
`LoadProfile._generate_duck_curve` (src/Generator.py:50-54):
Gaussian evening bump plus sinusoidal variation. -/
noncomputable def duckShape (base_load peak_load : ℝ) (t : ℝ) : ℝ :=
  base_load + (peak_load - base_load) * Real.exp (-(0.5) * ((t - 19) / 3) ^ 2)
    + 0.2 * base_load * Real.sin (0.5 * t)

/-- `LoadProfile._generate_duck_curve` with the time grid
`numpy.arange(0, hours, dt)` and the `numpy.random.normal(0, noise_std, N)`
vector modelled as the explicit draw sequence `noise`.  No clipping is
applied to the samples. -/
noncomputable def generateDuckCurve (base_load peak_load : ℝ) (hours dt : ℚ)
    (noise : ℕ → ℝ) : List ℝ :=
  let time := arange 0 hours dt
  (List.range time.length).map
    (fun i => duckShape base_load peak_load ((time.getD i 0 : ℚ) : ℝ) + noise i)

/-- The grid, mirroring `Grid.__init__` (src/Generator.py:62-68); the load
profile is carried as the plain demand sequence the loop consumes.  No
parameter is validated. -/
structure Grid where
  generators : List Generator
  load_profile : List ℚ
  nominal_freq : ℚ
  dt : ℚ
  damping : ℚ
  frequency : List ℚ
  deriving Repr, DecidableEq

/-- `Grid.__init__`: the frequency sequence is seeded with `nominal_freq`. -/
def mkGrid (generators : List Generator) (load_profile : List ℚ)
    (nominal_freq dt damping : ℚ) : Grid :=
  { generators := generators, load_profile := load_profile,
    nominal_freq := nominal_freq, dt := dt, damping := damping,
    frequency := [nominal_freq] }

/-- `sum(g.p_max for g in self.generators)` (src/Generator.py:71). -/
def totalCapacity (gs : List Generator) : ℚ := (gs.map Generator.p_max).sum

/-- One iteration of the `run_simulation` loop (src/Generator.py:73-89):
read `frequency[-1]`, dispatch every unit at its capacity-proportional share
of the demand, and append the explicit-Euler swing-equation update. -/
def stepGrid (total_capacity : ℚ) (grid : Grid) (demand : ℚ) : Grid :=
  let freq := grid.frequency.getLastD 0
  let freq_dev := freq - grid.nominal_freq
  let results := grid.generators.map
    (fun g => dispatch g freq_dev (demand * (g.p_max / total_capacity)))
  let gen_power := (results.map Prod.fst).sum
  let gens := results.map Prod.snd
  let total_inertia := (gens.map Generator.inertia).sum
  let df_dt := (gen_power - demand - grid.damping * freq_dev) /
    (2 * total_inertia * grid.nominal_freq)
  { grid with
    generators := gens
    frequency := grid.frequency ++ [freq + df_dt * grid.dt] }

/-- `Grid.run_simulation` (src/Generator.py:70-89): fold the step over the
load profile, with `total_capacity` computed once before the loop. -/
def run_simulation (grid : Grid) : Grid :=
  grid.load_profile.foldl (stepGrid (totalCapacity grid.generators)) grid

/-- C1: on a unit with nonzero droop, `dispatch` computes the clipped droop
setpoint, moves `current_output` a `response_rate` fraction toward it,
appends exactly the new value to the history, and returns it. -/
theorem dispatch_correct (g : Generator) (fd ds : ℚ) (h : g.droop ≠ 0) :
    (dispatch g fd ds).1 =
      g.current_output +
        g.response_rate * (clip (ds - fd / g.droop) 0 g.p_max - g.current_output) ∧
    ((dispatch g fd ds).2).current_output = (dispatch g fd ds).1 ∧
    ((dispatch g fd ds).2).p_output = g.p_output ++ [(dispatch g fd ds).1] :=
  ⟨rfl, rfl, rfl⟩

/-- Witness for C1 at a concrete unit with droop 1/20. -/
theorem dispatch_correct_witness :
    (dispatch (mkGenerator "Coal" 50 5 1 (1/20) (1/5)) (1/10) 30).1 =
      (mkGenerator "Coal" 50 5 1 (1/20) (1/5)).current_output +
        (mkGenerator "Coal" 50 5 1 (1/20) (1/5)).response_rate *
          (clip (30 - (1/10) / (mkGenerator "Coal" 50 5 1 (1/20) (1/5)).droop) 0
              (mkGenerator "Coal" 50 5 1 (1/20) (1/5)).p_max -
            (mkGenerator "Coal" 50 5 1 (1/20) (1/5)).current_output) :=
  (dispatch_correct (mkGenerator "Coal" 50 5 1 (1/20) (1/5)) (1/10) 30
    (by norm_num [mkGenerator])).1

/-- C3: the constructors perform no validation.  A generator with
`droop = 0` is constructed successfully (the division-by-zero error is
deferred to the first `dispatch` call), and a grid with an empty generator
list is constructed successfully as well — nothing fails at construction
time. -/
theorem construction_accepts_invalid_config :
    (mkGenerator "G" 50 5 1 0 (1/5)).droop = 0 ∧
    (mkGenerator "G" 50 5 1 0 (1/5)).current_output = 0 ∧
    (mkGenerator "G" 50 5 1 0 (1/5)).p_output = [] ∧
    (mkGenerator "G" (-3) 0 1 (1/20) 2).p_max = -3 ∧
    (mkGrid [] [1, 2] 50 (1/10) 1).generators = [] ∧
    (mkGrid [] [1, 2] 50 (1/10) 1).frequency = [50] :=
  ⟨rfl, rfl, rfl, rfl, rfl, rfl⟩

@[simp] theorem dispatch_snd_p_max (g : Generator) (fd ds : ℚ) :
    ((dispatch g fd ds).2).p_max = g.p_max := rfl

@[simp] theorem dispatch_snd_inertia (g : Generator) (fd ds : ℚ) :
    ((dispatch g fd ds).2).inertia = g.inertia := rfl

@[simp] theorem dispatch_snd_droop (g : Generator) (fd ds : ℚ) :
    ((dispatch g fd ds).2).droop = g.droop := rfl

@[simp] theorem dispatch_snd_response_rate (g : Generator) (fd ds : ℚ) :
    ((dispatch g fd ds).2).response_rate = g.response_rate := rfl

@[simp] theorem dispatch_snd_current_output (g : Generator) (fd ds : ℚ) :
    ((dispatch g fd ds).2).current_output = (dispatch g fd ds).1 := rfl

@[simp] theorem dispatch_snd_p_output (g : Generator) (fd ds : ℚ) :
    ((dispatch g fd ds).2).p_output = g.p_output ++ [(dispatch g fd ds).1] := rfl

theorem dispatch_fst_eq (g : Generator) (fd ds : ℚ) :
    (dispatch g fd ds).1 =
      g.current_output + g.response_rate * (setpointOf g fd ds - g.current_output) := rfl

theorem setpointOf_nonneg (g : Generator) (fd ds : ℚ) (hp : 0 ≤ g.p_max) :
    0 ≤ setpointOf g fd ds :=
  le_min hp (le_max_right _ _)

theorem setpointOf_le_p_max (g : Generator) (fd ds : ℚ) :
    setpointOf g fd ds ≤ g.p_max :=
  min_le_left _ _

theorem dispatch_fst_bounds (g : Generator) (fd ds : ℚ) (hp : 0 ≤ g.p_max)
    (hk0 : 0 ≤ g.response_rate) (hk1 : g.response_rate ≤ 1)
    (hc0 : 0 ≤ g.current_output) (hc1 : g.current_output ≤ g.p_max) :
    0 ≤ (dispatch g fd ds).1 ∧ (dispatch g fd ds).1 ≤ g.p_max := by
  have hs0 : 0 ≤ setpointOf g fd ds := setpointOf_nonneg g fd ds hp
  have hs1 : setpointOf g fd ds ≤ g.p_max := setpointOf_le_p_max g fd ds
  rw [dispatch_fst_eq]
  constructor
  · nlinarith [mul_nonneg hk0 hs0, mul_nonneg (sub_nonneg.mpr hk1) hc0]
  · nlinarith [mul_nonneg hk0 (sub_nonneg.mpr hs1),
      mul_nonneg (sub_nonneg.mpr hk1) (sub_nonneg.mpr hc1)]

theorem dispatchFold_invariant (inputs : List (ℚ × ℚ)) :
    ∀ g : Generator, 0 ≤ g.p_max → 0 ≤ g.response_rate → g.response_rate ≤ 1 →
      0 ≤ g.current_output → g.current_output ≤ g.p_max →
      (∀ x ∈ g.p_output, 0 ≤ x ∧ x ≤ g.p_max) →
      (0 ≤ (dispatchFold g inputs).current_output ∧
        (dispatchFold g inputs).current_output ≤ g.p_max ∧
        ∀ x ∈ (dispatchFold g inputs).p_output, 0 ≤ x ∧ x ≤ g.p_max) := by
  induction inputs with
  | nil =>
    intro g _ _ _ hc0 hc1 hh
    exact ⟨hc0, hc1, hh⟩
  | cons p rest ih =>
    intro g hp hk0 hk1 hc0 hc1 hh
    have hstep := dispatch_fst_bounds g p.1 p.2 hp hk0 hk1 hc0 hc1
    have hrec := ih ((dispatch g p.1 p.2).2) hp hk0 hk1 hstep.1 hstep.2 ?_
    · exact hrec
    · intro x hx
      rcases List.mem_append.mp hx with hx | hx
      · exact hh x hx
      · rcases List.mem_singleton.mp hx with rfl
        exact hstep

/-- C2: with `p_max > 0` and `response_rate ∈ (0,1]`, starting from
`current_output = 0` and an empty history, every sequence of `dispatch`
calls keeps `current_output` in `[0, p_max]` and every history entry in
`[0, p_max]` (the capability envelope), each new output being a convex
combination of the previous output and the clipped setpoint. -/
theorem output_envelope (g : Generator) (inputs : List (ℚ × ℚ))
    (hp : 0 < g.p_max) (hk0 : 0 < g.response_rate) (hk1 : g.response_rate ≤ 1)
    (hc : g.current_output = 0) (hh : g.p_output = []) :
    (0 ≤ (dispatchFold g inputs).current_output ∧
      (dispatchFold g inputs).current_output ≤ g.p_max) ∧
    ∀ x ∈ (dispatchFold g inputs).p_output, 0 ≤ x ∧ x ≤ g.p_max := by
  have h := dispatchFold_invariant inputs g hp.le hk0.le hk1
    (by rw [hc]) (by rw [hc]; exact hp.le) (by rw [hh]; intro x hx; cases hx)
  exact ⟨⟨h.1, h.2.1⟩, h.2.2⟩

/-- Witness for C2: three dispatch calls on a concrete unit, one of them
driving the setpoint against each clip bound. -/
theorem output_envelope_witness :
    (0 ≤ (dispatchFold (mkGenerator "Coal" 50 5 1 (1/20) (1/5))
        [(0, 30), ((-10), 30), (10, 30)]).current_output ∧
      (dispatchFold (mkGenerator "Coal" 50 5 1 (1/20) (1/5))
        [(0, 30), ((-10), 30), (10, 30)]).current_output ≤
        (mkGenerator "Coal" 50 5 1 (1/20) (1/5)).p_max) ∧
    ∀ x ∈ (dispatchFold (mkGenerator "Coal" 50 5 1 (1/20) (1/5))
        [(0, 30), ((-10), 30), (10, 30)]).p_output,
      0 ≤ x ∧ x ≤ (mkGenerator "Coal" 50 5 1 (1/20) (1/5)).p_max :=
  output_envelope (mkGenerator "Coal" 50 5 1 (1/20) (1/5))
    [(0, 30), ((-10), 30), (10, 30)]
    (by norm_num [mkGenerator]) (by norm_num [mkGenerator])
    (by norm_num [mkGenerator]) rfl rfl

@[simp] theorem dispatchIter_droop (fd ds : ℚ) (n : ℕ) (g : Generator) :
    (dispatchIter fd ds n g).droop = g.droop := by
  induction n with
  | zero => rfl
  | succ n ih => simp [dispatchIter, ih]

@[simp] theorem dispatchIter_p_max (fd ds : ℚ) (n : ℕ) (g : Generator) :
    (dispatchIter fd ds n g).p_max = g.p_max := by
  induction n with
  | zero => rfl
  | succ n ih => simp [dispatchIter, ih]

@[simp] theorem dispatchIter_response_rate (fd ds : ℚ) (n : ℕ) (g : Generator) :
    (dispatchIter fd ds n g).response_rate = g.response_rate := by
  induction n with
  | zero => rfl
  | succ n ih => simp [dispatchIter, ih]

theorem setpointOf_dispatchIter (fd ds : ℚ) (n : ℕ) (g : Generator) :
    setpointOf (dispatchIter fd ds n g) fd ds = setpointOf g fd ds := by
  simp [setpointOf]

theorem dispatchIter_p_output (fd ds : ℚ) (n : ℕ) (g : Generator) :
    (dispatchIter fd ds n g).p_output =
      g.p_output ++ (List.range n).map
        (fun j => (dispatchIter fd ds (j + 1) g).current_output) := by
  induction n with
  | zero => simp [dispatchIter]
  | succ n ih =>
    have : (dispatchIter fd ds (n + 1) g).p_output =
        (dispatchIter fd ds n g).p_output ++
          [(dispatchIter fd ds (n + 1) g).current_output] := rfl
    rw [this, ih, List.range_succ, List.map_append, List.append_assoc]
    rfl

theorem dispatchIter_gap (fd ds : ℚ) (n : ℕ) (g : Generator) :
    (dispatchIter fd ds (n + 1) g).current_output - setpointOf g fd ds =
      (1 - g.response_rate) *
        ((dispatchIter fd ds n g).current_output - setpointOf g fd ds) := by
  have h1 : (dispatchIter fd ds (n + 1) g).current_output =
      (dispatchIter fd ds n g).current_output +
        (dispatchIter fd ds n g).response_rate *
          (setpointOf (dispatchIter fd ds n g) fd ds -
            (dispatchIter fd ds n g).current_output) := rfl
  rw [h1, setpointOf_dispatchIter, dispatchIter_response_rate]
  ring

theorem dispatchIter_gap_pow (fd ds : ℚ) (t : ℕ) (g : Generator) :
    (dispatchIter fd ds (t + 1) g).current_output - setpointOf g fd ds =
      (1 - g.response_rate) ^ t *
        ((dispatchIter fd ds 1 g).current_output - setpointOf g fd ds) := by
  induction t with
  | zero => rw [pow_zero, one_mul]
  | succ t ih => rw [dispatchIter_gap, ih, pow_succ]; ring

theorem dispatchIter_getD (fd ds : ℚ) (t : ℕ) (g : Generator) (hh : g.p_output = []) :
    ((dispatchIter fd ds (t + 1) g).p_output).getD t 0 =
      (dispatchIter fd ds (t + 1) g).current_output := by
  rw [dispatchIter_p_output, hh, List.nil_append]
  have hlen : t < ((List.range (t + 1)).map
      (fun j => (dispatchIter fd ds (j + 1) g).current_output)).length := by
    simp
  rw [List.getD_eq_getElem _ _ hlen, List.getElem_map, List.getElem_range]

/-- C7: dispatching a unit repeatedly with the same fixed inputs (constant
demand share and frequency deviation, hence a fixed clipped setpoint), with
`response_rate < 1`, the distance of the recorded output from the setpoint
contracts geometrically: the `t`-th history entry is within
`(1 - response_rate)^t` times the distance of the first entry. -/
theorem dispatch_geometric_contraction (g : Generator) (fd ds : ℚ) (t : ℕ)
    (hk1 : g.response_rate < 1) (hh : g.p_output = []) :
    |((dispatchIter fd ds (t + 1) g).p_output).getD t 0 - setpointOf g fd ds| ≤
      (1 - g.response_rate) ^ t *
        |((dispatchIter fd ds 1 g).p_output).getD 0 0 - setpointOf g fd ds| := by
  rw [dispatchIter_getD fd ds t g hh, dispatchIter_getD fd ds 0 g hh]
  rw [dispatchIter_gap_pow, abs_mul, abs_pow,
    abs_of_nonneg (by linarith : (0 : ℚ) ≤ 1 - g.response_rate)]

/-- Witness for C7 at a concrete unit, three steps. -/
theorem dispatch_geometric_contraction_witness :
    |((dispatchIter 0 30 (2 + 1) (mkGenerator "Coal" 50 5 1 (1/20) (1/5))).p_output).getD
        2 0 - setpointOf (mkGenerator "Coal" 50 5 1 (1/20) (1/5)) 0 30| ≤
      (1 - (mkGenerator "Coal" 50 5 1 (1/20) (1/5)).response_rate) ^ 2 *
        |((dispatchIter 0 30 1 (mkGenerator "Coal" 50 5 1 (1/20) (1/5))).p_output).getD
            0 0 - setpointOf (mkGenerator "Coal" 50 5 1 (1/20) (1/5)) 0 30| :=
  dispatch_geometric_contraction (mkGenerator "Coal" 50 5 1 (1/20) (1/5)) 0 30 2
    (by norm_num [mkGenerator]) rfl

/-- C4: `run_simulation` folds the step with `total_capacity = Σ p_max`
computed once; each step dispatches every unit at share
`D * (p_max / total_capacity)`, sums the results into `gen_power`, and
appends `f_prev + dt * (gen_power - D - damping * freq_dev) /
(2 * H_total * nominal_freq)` with `H_total = Σ inertia`. -/
theorem grid_step_spec (g : Grid) (tc D : ℚ) :
    run_simulation g =
      g.load_profile.foldl (stepGrid ((g.generators.map Generator.p_max).sum)) g ∧
    (stepGrid tc g D).frequency = g.frequency ++
      [g.frequency.getLastD 0 + g.dt *
        (((g.generators.map (fun u =>
            (dispatch u (g.frequency.getLastD 0 - g.nominal_freq)
              (D * (u.p_max / tc))).1)).sum
          - D - g.damping * (g.frequency.getLastD 0 - g.nominal_freq)) /
          (2 * (g.generators.map Generator.inertia).sum * g.nominal_freq))] ∧
    (stepGrid tc g D).generators = g.generators.map
      (fun u => (dispatch u (g.frequency.getLastD 0 - g.nominal_freq)
        (D * (u.p_max / tc))).2) := by
  refine ⟨rfl, ?_, ?_⟩
  · simp only [stepGrid, List.map_map, Function.comp_def, dispatch_snd_inertia]
    rw [mul_comm]
  · simp only [stepGrid, List.map_map, Function.comp_def]

@[simp] theorem stepGrid_load_profile (tc : ℚ) (g : Grid) (D : ℚ) :
    (stepGrid tc g D).load_profile = g.load_profile := rfl

@[simp] theorem stepGrid_frequency_length (tc : ℚ) (g : Grid) (D : ℚ) :
    ((stepGrid tc g D).frequency).length = g.frequency.length + 1 := by
  simp [stepGrid]

/-- The list of per-unit history lengths of a grid. -/
def histLens (g : Grid) : List ℕ := g.generators.map (fun u => u.p_output.length)

theorem stepGrid_histLens (tc : ℚ) (g : Grid) (D : ℚ) :
    histLens (stepGrid tc g D) = (histLens g).map (· + 1) := by
  simp [histLens, stepGrid, List.map_map, Function.comp_def]

theorem foldl_load_profile (tc : ℚ) (load : List ℚ) :
    ∀ g : Grid, (load.foldl (stepGrid tc) g).load_profile = g.load_profile := by
  induction load with
  | nil => intro g; rfl
  | cons D rest ih => intro g; exact (ih (stepGrid tc g D)).trans rfl

theorem foldl_frequency_length (tc : ℚ) (load : List ℚ) :
    ∀ g : Grid,
      ((load.foldl (stepGrid tc) g).frequency).length =
        g.frequency.length + load.length := by
  induction load with
  | nil => intro g; rfl
  | cons D rest ih =>
    intro g
    have := ih (stepGrid tc g D)
    simp only [List.foldl_cons, this, stepGrid_frequency_length, List.length_cons]
    omega

theorem foldl_histLens (tc : ℚ) (load : List ℚ) :
    ∀ g : Grid,
      histLens (load.foldl (stepGrid tc) g) = (histLens g).map (· + load.length) := by
  induction load with
  | nil =>
    intro g
    simp
  | cons D rest ih =>
    intro g
    have := ih (stepGrid tc g D)
    simp only [List.foldl_cons, this, stepGrid_histLens, List.map_map, List.length_cons]
    apply List.map_congr_left
    intro x _
    simp [Function.comp_def]
    omega

theorem histLens_const {g : Grid} {N : ℕ} (h : ∀ x ∈ histLens g, x = N) :
    ∀ u ∈ g.generators, u.p_output.length = N := by
  intro u hu
  exact h _ (List.mem_map_of_mem _ hu)

/-- C5: a run over a load profile of `N` samples leaves `N + 1` frequency
entries (seeded with the nominal frequency) and, for every unit, exactly
`N` history entries; the loop performs one iteration per sample with no
early exit. -/
theorem run_simulation_lengths (gens : List Generator) (load : List ℚ)
    (nom dt damp : ℚ) (hh : ∀ u ∈ gens, u.p_output = []) :
    ((run_simulation (mkGrid gens load nom dt damp)).frequency).length =
      load.length + 1 ∧
    ∀ u ∈ (run_simulation (mkGrid gens load nom dt damp)).generators,
      u.p_output.length = load.length := by
  have hrun : run_simulation (mkGrid gens load nom dt damp) =
      load.foldl (stepGrid (totalCapacity gens)) (mkGrid gens load nom dt damp) := rfl
  constructor
  · rw [hrun, foldl_frequency_length]
    simp [mkGrid]
    omega
  · apply histLens_const
    intro x hx
    rw [hrun, foldl_histLens] at hx
    simp only [histLens, mkGrid, List.map_map, List.mem_map, Function.comp_def] at hx
    obtain ⟨v, hv, rfl⟩ := hx
    rw [hh v hv]
    simp

/-- Witness for C5: one unit, two load samples. -/
theorem run_simulation_lengths_witness :
    ((run_simulation (mkGrid [mkGenerator "A" 50 5 1 (1/20) (1/5)] [60, 61]
        50 (1/10) 1)).frequency).length = [60, 61].length + 1 ∧
    ∀ u ∈ (run_simulation (mkGrid [mkGenerator "A" 50 5 1 (1/20) (1/5)] [60, 61]
        50 (1/10) 1)).generators, u.p_output.length = [60, 61].length :=
  run_simulation_lengths [mkGenerator "A" 50 5 1 (1/20) (1/5)] [60, 61] 50 (1/10) 1
    (by intro u hu; simp [mkGenerator] at hu; rw [hu])

/-- C9: `run_simulation` never resets: a second run on the same grid
appends, leaving `2N + 1` frequency entries and `2N` history entries per
unit. -/
theorem rerun_appends (gens : List Generator) (load : List ℚ)
    (nom dt damp : ℚ) (hh : ∀ u ∈ gens, u.p_output = []) :
    ((run_simulation (run_simulation (mkGrid gens load nom dt damp))).frequency).length =
      2 * load.length + 1 ∧
    ∀ u ∈ (run_simulation (run_simulation (mkGrid gens load nom dt damp))).generators,
      u.p_output.length = 2 * load.length := by
  set g1 := run_simulation (mkGrid gens load nom dt damp) with hg1
  have hload1 : g1.load_profile = load := by
    rw [hg1]
    exact (foldl_load_profile _ load _).trans rfl
  have hrun2 : run_simulation g1 =
      g1.load_profile.foldl (stepGrid (totalCapacity g1.generators)) g1 := rfl
  constructor
  · rw [hrun2, hload1, foldl_frequency_length, hg1]
    have : ((run_simulation (mkGrid gens load nom dt damp)).frequency).length =
        load.length + 1 := (run_simulation_lengths gens load nom dt damp hh).1
    rw [this]
    omega
  · apply histLens_const
    intro x hx
    rw [hrun2, hload1, foldl_histLens] at hx
    simp only [List.mem_map] at hx
    obtain ⟨y, hy, rfl⟩ := hx
    have hrun1 : run_simulation (mkGrid gens load nom dt damp) =
        load.foldl (stepGrid (totalCapacity gens)) (mkGrid gens load nom dt damp) := rfl
    rw [hg1, hrun1, foldl_histLens] at hy
    simp only [histLens, mkGrid, List.map_map, List.mem_map, Function.comp_def] at hy
    obtain ⟨v, hv, rfl⟩ := hy
    rw [hh v hv]
    simp
    omega

/-- Witness for C9: one unit, two load samples, run twice. -/
theorem rerun_appends_witness :
    ((run_simulation (run_simulation (mkGrid [mkGenerator "A" 50 5 1 (1/20) (1/5)]
        [60, 61] 50 (1/10) 1))).frequency).length = 2 * [60, 61].length + 1 ∧
    ∀ u ∈ (run_simulation (run_simulation (mkGrid [mkGenerator "A" 50 5 1 (1/20) (1/5)]
        [60, 61] 50 (1/10) 1))).generators,
      u.p_output.length = 2 * [60, 61].length :=
  rerun_appends [mkGenerator "A" 50 5 1 (1/20) (1/5)] [60, 61] 50 (1/10) 1
    (by intro u hu; simp [mkGenerator] at hu; rw [hu])

/-- C8: within one step, each unit's dispatch depends only on the shared
`freq_dev` and demand and on the unit itself, so permuting the unit list
leaves `gen_power` (the dispatched sum), the appended frequency value, and
each unit's own updated state unchanged (the updated list is the pointwise
image of the units). -/
theorem step_order_independent (g : Grid) (gs' : List Generator) (tc D : ℚ)
    (hperm : g.generators.Perm gs') :
    (g.generators.map (fun u =>
        (dispatch u (g.frequency.getLastD 0 - g.nominal_freq)
          (D * (u.p_max / tc))).1)).sum =
      (gs'.map (fun u =>
        (dispatch u (g.frequency.getLastD 0 - g.nominal_freq)
          (D * (u.p_max / tc))).1)).sum ∧
    (stepGrid tc g D).frequency = (stepGrid tc { g with generators := gs' } D).frequency ∧
    (stepGrid tc g D).generators.Perm
      ((stepGrid tc { g with generators := gs' } D).generators) ∧
    (stepGrid tc { g with generators := gs' } D).generators = gs'.map
      (fun u => (dispatch u (g.frequency.getLastD 0 - g.nominal_freq)
        (D * (u.p_max / tc))).2) := by
  have hP : (g.generators.map (fun u =>
      (dispatch u (g.frequency.getLastD 0 - g.nominal_freq)
        (D * (u.p_max / tc))).1)).sum =
      (gs'.map (fun u =>
        (dispatch u (g.frequency.getLastD 0 - g.nominal_freq)
          (D * (u.p_max / tc))).1)).sum :=
    (hperm.map _).sum_eq
  have hI : (g.generators.map (fun u => u.inertia)).sum =
      (gs'.map (fun u => u.inertia)).sum := (hperm.map _).sum_eq
  refine ⟨hP, ?_, ?_, ?_⟩
  · simp only [stepGrid, List.map_map, Function.comp_def, dispatch_snd_inertia]
    rw [hP, hI]
  · simp only [stepGrid, List.map_map, Function.comp_def]
    exact hperm.map _
  · simp only [stepGrid, List.map_map, Function.comp_def]

/-- Witness for C8: two units swapped. -/
theorem step_order_independent_witness :
    ((mkGrid [mkGenerator "A" 50 5 1 (1/20) (1/5), mkGenerator "B" 30 3 1 (1/20) (3/10)]
        [60] 50 (1/10) 1).generators.map (fun u =>
        (dispatch u ((mkGrid [mkGenerator "A" 50 5 1 (1/20) (1/5),
            mkGenerator "B" 30 3 1 (1/20) (3/10)] [60] 50 (1/10) 1).frequency.getLastD 0 -
          (mkGrid [mkGenerator "A" 50 5 1 (1/20) (1/5),
            mkGenerator "B" 30 3 1 (1/20) (3/10)] [60] 50 (1/10) 1).nominal_freq)
          (60 * (u.p_max / 80))).1)).sum =
      ([mkGenerator "B" 30 3 1 (1/20) (3/10), mkGenerator "A" 50 5 1 (1/20) (1/5)].map
        (fun u =>
        (dispatch u ((mkGrid [mkGenerator "A" 50 5 1 (1/20) (1/5),
            mkGenerator "B" 30 3 1 (1/20) (3/10)] [60] 50 (1/10) 1).frequency.getLastD 0 -
          (mkGrid [mkGenerator "A" 50 5 1 (1/20) (1/5),
            mkGenerator "B" 30 3 1 (1/20) (3/10)] [60] 50 (1/10) 1).nominal_freq)
          (60 * (u.p_max / 80))).1)).sum :=
  (step_order_independent
    (mkGrid [mkGenerator "A" 50 5 1 (1/20) (1/5), mkGenerator "B" 30 3 1 (1/20) (3/10)]
      [60] 50 (1/10) 1)
    [mkGenerator "B" 30 3 1 (1/20) (3/10), mkGenerator "A" 50 5 1 (1/20) (1/5)]
    80 60
    (List.Perm.swap (mkGenerator "B" 30 3 1 (1/20) (3/10))
      (mkGenerator "A" 50 5 1 (1/20) (1/5)) [])).1

/-- Two units that agree on every field except possibly `damping`. -/
@[reducible] def sameIgnoringDamping (u v : Generator) : Prop :=
  u.name = v.name ∧ u.p_max = v.p_max ∧ u.inertia = v.inertia ∧ u.droop = v.droop ∧
  u.response_rate = v.response_rate ∧ u.current_output = v.current_output ∧
  u.p_output = v.p_output

theorem dispatch_sameIgnoringDamping (fd ds : ℚ) {u v : Generator}
    (h : sameIgnoringDamping u v) :
    (dispatch u fd ds).1 = (dispatch v fd ds).1 ∧
    sameIgnoringDamping (dispatch u fd ds).2 (dispatch v fd ds).2 := by
  obtain ⟨hn, hp, hi, hd, hr, hc, hh⟩ := h
  have hfst : (dispatch u fd ds).1 = (dispatch v fd ds).1 := by
    simp only [dispatch_fst_eq, setpointOf, clip, hp, hd, hr, hc]
  exact ⟨hfst, hn, hp, hi, hd, hr,
    by simp only [dispatch_snd_current_output, hfst],
    by simp only [dispatch_snd_p_output, hh, hfst]⟩

theorem forall2_map_eq {R : Generator → Generator → Prop} (f : Generator → ℚ)
    (hf : ∀ a b, R a b → f a = f b) :
    ∀ {l₁ l₂ : List Generator}, List.Forall₂ R l₁ l₂ → l₁.map f = l₂.map f := by
  intro l₁ l₂ h
  induction h with
  | nil => rfl
  | cons hab _ ih => simp only [List.map_cons, hf _ _ hab, ih]

theorem dispatchList_rel (fd D tc : ℚ) :
    ∀ {l₁ l₂ : List Generator}, List.Forall₂ sameIgnoringDamping l₁ l₂ →
      l₁.map (fun u => (dispatch u fd (D * (u.p_max / tc))).1) =
        l₂.map (fun u => (dispatch u fd (D * (u.p_max / tc))).1) ∧
      List.Forall₂ sameIgnoringDamping
        (l₁.map (fun u => (dispatch u fd (D * (u.p_max / tc))).2))
        (l₂.map (fun u => (dispatch u fd (D * (u.p_max / tc))).2)) := by
  intro l₁ l₂ h
  induction h with
  | nil => exact ⟨rfl, List.Forall₂.nil⟩
  | cons hab _ ih =>
    rename_i a b l₁ l₂ _
    have hsh : D * (a.p_max / tc) = D * (b.p_max / tc) := by rw [hab.2.1]
    have hd := dispatch_sameIgnoringDamping fd (D * (b.p_max / tc)) hab
    constructor
    · simp only [List.map_cons, ih.1]
      rw [hsh, hd.1]
    · simp only [List.map_cons]
      refine List.Forall₂.cons ?_ ih.2
      rw [hsh]
      exact hd.2

/-- Grids that agree on everything except possibly the per-unit damping
fields of their generators. -/
@[reducible] def GridRel (g₁ g₂ : Grid) : Prop :=
  g₁.load_profile = g₂.load_profile ∧ g₁.nominal_freq = g₂.nominal_freq ∧
  g₁.dt = g₂.dt ∧ g₁.damping = g₂.damping ∧ g₁.frequency = g₂.frequency ∧
  List.Forall₂ sameIgnoringDamping g₁.generators g₂.generators

theorem stepGrid_gridRel (tc D : ℚ) {g₁ g₂ : Grid} (h : GridRel g₁ g₂) :
    GridRel (stepGrid tc g₁ D) (stepGrid tc g₂ D) := by
  obtain ⟨hl, hn, hdt, hdamp, hf, hgen⟩ := h
  have hrel := dispatchList_rel (g₁.frequency.getLastD 0 - g₁.nominal_freq) D tc hgen
  have hIn : g₁.generators.map (fun u => u.inertia) =
      g₂.generators.map (fun u => u.inertia) :=
    forall2_map_eq (R := sameIgnoringDamping) (fun u => u.inertia)
      (fun a b hab => hab.2.2.1) hgen
  refine ⟨hl, hn, hdt, hdamp, ?_, ?_⟩
  · simp only [stepGrid, List.map_map, Function.comp_def, dispatch_snd_inertia]
    rw [hf, hn, hdt, hdamp]
    rw [hf, hn] at hrel
    rw [hrel.1]
    rw [show g₁.generators.map (fun u => u.inertia) =
        g₂.generators.map (fun u => u.inertia) from hIn]
  · simp only [stepGrid, List.map_map, Function.comp_def]
    rw [hf, hn] at hrel
    rw [hf, hn]
    exact hrel.2

theorem foldl_gridRel (tc : ℚ) (load : List ℚ) :
    ∀ {g₁ g₂ : Grid}, GridRel g₁ g₂ →
      GridRel (load.foldl (stepGrid tc) g₁) (load.foldl (stepGrid tc) g₂) := by
  induction load with
  | nil => intro g₁ g₂ h; exact h
  | cons D rest ih =>
    intro g₁ g₂ h
    exact ih (stepGrid_gridRel tc D h)

/-- C10: a generator's per-unit `damping` field is never read by the
simulation: two grids whose configurations differ only in unit damping
values produce identical frequency sequences and identical per-unit output
histories. -/
theorem damping_parameter_irrelevant (g₁ g₂ : Grid)
    (hl : g₁.load_profile = g₂.load_profile) (hn : g₁.nominal_freq = g₂.nominal_freq)
    (hdt : g₁.dt = g₂.dt) (hdamp : g₁.damping = g₂.damping)
    (hf : g₁.frequency = g₂.frequency)
    (hgen : List.Forall₂ sameIgnoringDamping g₁.generators g₂.generators) :
    (run_simulation g₁).frequency = (run_simulation g₂).frequency ∧
    List.Forall₂ (fun u v => u.p_output = v.p_output)
      (run_simulation g₁).generators (run_simulation g₂).generators := by
  have htc : totalCapacity g₁.generators = totalCapacity g₂.generators := by
    unfold totalCapacity
    rw [forall2_map_eq (R := sameIgnoringDamping) Generator.p_max
      (fun a b hab => hab.2.1) hgen]
  have hrun : GridRel (run_simulation g₁) (run_simulation g₂) := by
    unfold run_simulation
    rw [hl, htc]
    exact foldl_gridRel _ _ ⟨hl, hn, hdt, hdamp, hf, hgen⟩
  obtain ⟨-, -, -, -, hfeq, hgens⟩ := hrun
  refine ⟨hfeq, hgens.imp ?_⟩
  intro a b hab
  exact hab.2.2.2.2.2.2

/-- Witness for C10: one-unit grids whose units differ only in damping. -/
theorem damping_parameter_irrelevant_witness :
    (run_simulation (mkGrid [mkGenerator "A" 50 5 1 (1/20) (1/5)] [60] 50
        (1/10) 1)).frequency =
      (run_simulation (mkGrid [mkGenerator "A" 50 5 7 (1/20) (1/5)] [60] 50
        (1/10) 1)).frequency ∧
    List.Forall₂ (fun u v => u.p_output = v.p_output)
      (run_simulation (mkGrid [mkGenerator "A" 50 5 1 (1/20) (1/5)] [60] 50
        (1/10) 1)).generators
      (run_simulation (mkGrid [mkGenerator "A" 50 5 7 (1/20) (1/5)] [60] 50
        (1/10) 1)).generators :=
  damping_parameter_irrelevant
    (mkGrid [mkGenerator "A" 50 5 1 (1/20) (1/5)] [60] 50 (1/10) 1)
    (mkGrid [mkGenerator "A" 50 5 7 (1/20) (1/5)] [60] 50 (1/10) 1)
    rfl rfl rfl rfl rfl
    (List.Forall₂.cons ⟨rfl, rfl, rfl, rfl, rfl, rfl, rfl⟩ List.Forall₂.nil)

theorem arange_length (start stop step : ℚ) :
    (arange start stop step).length = Nat.ceil ((stop - start) / step) := by
  unfold arange
  rw [List.length_map, List.length_range]

theorem arange_getD (start stop step : ℚ) (i : ℕ)
    (hi : i < Nat.ceil ((stop - start) / step)) :
    (arange start stop step).getD i 0 = start + (i : ℚ) * step := by
  unfold arange
  have hi2 : i < ((List.range (Nat.ceil ((stop - start) / step))).map
      (fun (j : ℕ) => start + (j : ℚ) * step)).length := by
    rw [List.length_map, List.length_range]
    exact hi
  rw [List.getD_eq_getElem _ _ hi2, List.getElem_map, List.getElem_range]

theorem generateDuckCurve_length (base peak : ℝ) (hours dt : ℚ) (noise : ℕ → ℝ) :
    (generateDuckCurve base peak hours dt noise).length = Nat.ceil (hours / dt) := by
  unfold generateDuckCurve
  rw [List.length_map, List.length_range, arange_length, sub_zero]

/-- Counterexample for C6: with `hours = 1` and `dt = 2/5`,
`numpy.arange(0, hours, dt)` yields `⌈hours/dt⌉ = 3` samples
(`0, 2/5, 4/5`), not `⌊hours/dt⌋ = 2` as the claim states. -/
theorem duck_curve_floor_counterexample :
    ¬ (generateDuckCurve 40 80 1 (2/5) (fun _ => 0)).length =
        Nat.floor ((1 : ℚ) / (2/5)) := by
  have h1 : (generateDuckCurve 40 80 1 (2/5) (fun _ => 0)).length = 3 := by
    rw [generateDuckCurve_length]
    rw [show ((1 : ℚ) / (2/5)) = 2 + 1/2 by norm_num]
    rw [Nat.ceil_eq_iff (by norm_num)]
    constructor
    · norm_num
    · norm_num
  have h2 : Nat.floor ((1 : ℚ) / (2/5)) = 2 := by
    rw [show ((1 : ℚ) / (2/5)) = 2 + 1/2 by norm_num]
    rw [Nat.floor_eq_iff (by norm_num)]
    constructor
    · norm_num
    · norm_num
  omega

/-- C6 (amended): the profile has `⌈hours/dt⌉` samples (the exact-arithmetic
length of `numpy.arange(0, hours, dt)`), and the `i`-th sample at
`t_i = i·dt` is the duck-curve shape at `t_i` plus the `i`-th noise draw;
no clipping is applied to the sum. -/
theorem duck_curve_spec (base peak : ℝ) (hours dt : ℚ) (noise : ℕ → ℝ) (i : ℕ)
    (hi : i < Nat.ceil (hours / dt)) :
    (generateDuckCurve base peak hours dt noise).length = Nat.ceil (hours / dt) ∧
    (generateDuckCurve base peak hours dt noise).getD i 0 =
      duckShape base peak ((i : ℝ) * ((dt : ℚ) : ℝ)) + noise i := by
  refine ⟨generateDuckCurve_length base peak hours dt noise, ?_⟩
  have hi2 : i < ((List.range ((arange 0 hours dt).length)).map
      (fun j => duckShape base peak (((arange 0 hours dt).getD j 0 : ℚ) : ℝ) +
        noise j)).length := by
    rw [List.length_map, List.length_range, arange_length, sub_zero]
    exact hi
  unfold generateDuckCurve
  rw [List.getD_eq_getElem _ _ hi2, List.getElem_map, List.getElem_range]
  have ht : (arange 0 hours dt).getD i 0 = 0 + (i : ℚ) * dt :=
    arange_getD 0 hours dt i (by rwa [sub_zero])
  rw [ht]
  have hcast : (((0 + (i : ℚ) * dt : ℚ)) : ℝ) = (i : ℝ) * ((dt : ℚ) : ℝ) := by
    push_cast
    ring
  rw [hcast]

/-- Witness for C6's amended theorem at `hours = 1`, `dt = 1/2`, `i = 0`,
zero noise. -/
theorem duck_curve_spec_witness :
    (generateDuckCurve 40 80 1 (1/2) (fun _ => 0)).length =
      Nat.ceil ((1 : ℚ) / (1/2)) ∧
    (generateDuckCurve 40 80 1 (1/2) (fun _ => 0)).getD 0 0 =
      duckShape 40 80 (((0 : ℕ) : ℝ) * (((1/2 : ℚ)) : ℝ)) + (fun _ => (0 : ℝ)) 0 := by
  have h := duck_curve_spec 40 80 1 (1/2) (fun _ => 0) 0
    (by rw [show ((1 : ℚ) / (1/2)) = 2 by norm_num]; norm_num)
  exact ⟨h.1, h.2⟩

end V2G
